import Mathlib

set_option maxRecDepth 40000

namespace CodecraftersGit

/-!
Shallow embedding of the git object store implemented in src/main.rs of
the repository. Bytes are modelled as natural numbers below 256; Rust
byte slices and vectors as lists of naturals; Rust strings either as
their UTF-8 byte lists (when the source manipulates bytes) or as Lean
strings (when the source manipulates characters, e.g. the hex id).
Fallible Rust functions return an explicit result type that separates
ordinary anyhow errors from panics.
-/

/-- Code points of the characters of an ASCII string, as bytes. -/
def asciiBytes (s : String) : List Nat := s.data.map Char.toNat

/-- Truncation of a natural number to 32 bits. -/
def w32 (n : Nat) : Nat := n % 4294967296

/-- Rotation of a 32-bit word left by s bits (callers keep n below 2^32). -/
def rotl32 (s n : Nat) : Nat := (n % 2 ^ (32 - s)) * 2 ^ s + n / 2 ^ (32 - s)

/-- Big-endian byte rendering of n on k bytes. -/
def beBytes : Nat → Nat → List Nat
  | 0, _ => []
  | k + 1, n => beBytes k (n / 256) ++ [n % 256]

/-- One 32-bit word from big-endian bytes. -/
def bytesToWord (bs : List Nat) : Nat := bs.foldl (fun a b => a * 256 + b) 0

/-- Splitting a byte list into successive chunks of size n. The first
argument is recursion fuel so that the definition is structural and
reduces by iota; starting the fuel at the list length never exhausts it,
since every step consumes at least one element. -/
def chunkListAux : Nat → Nat → List Nat → List (List Nat)
  | 0, _, _ => []
  | _, _, [] => []
  | fuel + 1, n, a :: l => ((a :: l).take n) :: chunkListAux fuel n ((a :: l).drop n)

/-- Splitting a byte list into chunks of a fixed positive size. -/
def chunkList (n : Nat) (l : List Nat) : List (List Nat) := chunkListAux l.length n l

/-- Modelled from the spec: the Hasher component is the external sha1
crate, absent from src/; this is the standard SHA-1 padding it
implements (append 0x80, zero-fill to 56 mod 64, then the bit length
on 8 big-endian bytes). -/
def sha1Pad (msg : List Nat) : List Nat :=
  msg ++ [128] ++ List.replicate ((119 - msg.length % 64) % 64) 0 ++ beBytes 8 (msg.length * 8)

/-- Modelled from the spec: SHA-1 round function per 20-round group. -/
def sha1F (i b c d : Nat) : Nat :=
  if i < 20 then (b &&& c) ||| ((4294967295 - b) &&& d)
  else if i < 40 then b ^^^ c ^^^ d
  else if i < 60 then (b &&& c) ||| (b &&& d) ||| (c &&& d)
  else b ^^^ c ^^^ d

/-- Modelled from the spec: SHA-1 round constant per 20-round group. -/
def sha1K (i : Nat) : Nat :=
  if i < 20 then 1518500249
  else if i < 40 then 1859775393
  else if i < 60 then 2400959708
  else 3395469782

/-- One step of the SHA-1 message-schedule extension: append the next word. -/
def extendStep (ws : List Nat) : List Nat :=
  ws ++ [rotl32 1 (ws.getD (ws.length - 3) 0 ^^^ ws.getD (ws.length - 8) 0 ^^^
    ws.getD (ws.length - 14) 0 ^^^ ws.getD (ws.length - 16) 0)]

/-- Iterated message-schedule extension. -/
def extendWords : Nat → List Nat → List Nat
  | 0, ws => ws
  | k + 1, ws => extendWords k (extendStep ws)

/-- The 80 SHA-1 rounds over the state (a, b, c, d, e). -/
def sha1Rounds : List Nat → Nat → Nat × Nat × Nat × Nat × Nat → Nat × Nat × Nat × Nat × Nat
  | [], _, s => s
  | w :: rest, i, (a, b, c, d, e) =>
    sha1Rounds rest (i + 1) (w32 (rotl32 5 a + sha1F i b c d + e + sha1K i + w), a, rotl32 30 b, c, d)

/-- Compression of one 64-byte chunk into the running SHA-1 state. -/
def sha1Chunk (h : Nat × Nat × Nat × Nat × Nat) (chunk : List Nat) : Nat × Nat × Nat × Nat × Nat :=
  let ws := extendWords 64 ((chunkList 4 chunk).map bytesToWord)
  match h, sha1Rounds ws 0 h with
  | (h0, h1, h2, h3, h4), (a, b, c, d, e) =>
    (w32 (h0 + a), w32 (h1 + b), w32 (h2 + c), w32 (h3 + d), w32 (h4 + e))

/-- Modelled from the spec: the SHA-1 digest (20 bytes) of a byte sequence,
the content digest declared for the Hasher component. -/
def sha1 (msg : List Nat) : List Nat :=
  match (chunkList 64 (sha1Pad msg)).foldl sha1Chunk
      (1732584193, 4023233417, 2562383102, 271733878, 3285377520) with
  | (h0, h1, h2, h3, h4) =>
    beBytes 4 h0 ++ beBytes 4 h1 ++ beBytes 4 h2 ++ beBytes 4 h3 ++ beBytes 4 h4

/-- Lowercase hex digit for a value below 16. -/
def hexDigit (n : Nat) : Char := if n < 10 then Char.ofNat (48 + n) else Char.ofNat (87 + n)

/-- Lowercase hex rendering of a byte list (the hex crate encode, external). -/
def hex_encode (bs : List Nat) : String :=
  ⟨bs.foldr (fun b acc => hexDigit (b / 16) :: hexDigit (b % 16) :: acc) []⟩

/-- Embeds slice::split on a byte value, as used at src/main.rs lines 158
and 191: n separators yield n + 1 (possibly empty) parts. -/
def splitOnByte (sep : Nat) : List Nat → List (List Nat)
  | [] => [[]]
  | b :: rest =>
    if b = sep then [] :: splitOnByte sep rest
    else match splitOnByte sep rest with
      | [] => [[b]]
      | h :: t => (b :: h) :: t

/-- Continuation byte test for UTF-8 validation. -/
def utf8Cont (c : Nat) : Bool := 128 ≤ c && c ≤ 191

/-- Validity of a byte list as UTF-8, the check performed by Rust
String::from_utf8 (RFC 3629 table, rejecting overlong forms and
surrogates). -/
def validUtf8 : List Nat → Bool
  | [] => true
  | b :: rest =>
    if b < 128 then validUtf8 rest
    else if 194 ≤ b && b ≤ 223 then
      match rest with
      | c :: r => utf8Cont c && validUtf8 r
      | [] => false
    else if b = 224 then
      match rest with
      | c :: d :: r => (160 ≤ c && c ≤ 191) && utf8Cont d && validUtf8 r
      | _ => false
    else if (225 ≤ b && b ≤ 236) || b = 238 || b = 239 then
      match rest with
      | c :: d :: r => utf8Cont c && utf8Cont d && validUtf8 r
      | _ => false
    else if b = 237 then
      match rest with
      | c :: d :: r => (128 ≤ c && c ≤ 159) && utf8Cont d && validUtf8 r
      | _ => false
    else if b = 240 then
      match rest with
      | c :: d :: e :: r => (144 ≤ c && c ≤ 191) && utf8Cont d && utf8Cont e && validUtf8 r
      | _ => false
    else if 241 ≤ b && b ≤ 243 then
      match rest with
      | c :: d :: e :: r => utf8Cont c && utf8Cont d && utf8Cont e && validUtf8 r
      | _ => false
    else if b = 244 then
      match rest with
      | c :: d :: e :: r => (128 ≤ c && c ≤ 143) && utf8Cont d && utf8Cont e && validUtf8 r
      | _ => false
    else false

/-- ASCII decimal digit test. -/
def isDigitByte (b : Nat) : Bool := 48 ≤ b && b ≤ 57

/-- Embeds str::parse::<u32> applied to the bytes of the header length
field (src/main.rs lines 202 and 231): an optional leading plus sign,
then at least one decimal digit, with the value required to fit in 32
bits; anything else is an error. -/
def parseU32 (bs : List Nat) : Except String Nat :=
  let ds := if bs.head? = some 43 then bs.tail else bs
  if ds.isEmpty then .error "cannot parse integer from empty string"
  else if ds.all isDigitByte then
    let v := ds.foldl (fun acc b => acc * 10 + (b - 48)) 0
    if v < 4294967296 then .ok v else .error "number too large to fit in target type"
  else .error "invalid digit found in string"

/-- Little-endian decimal digits of n. The first argument is recursion
fuel keeping the definition structural; fuel n suffices since the
quotient by 10 strictly decreases. -/
def decimalDigitsAux : Nat → Nat → List Nat
  | 0, _ => []
  | _ + 1, 0 => []
  | fuel + 1, n + 1 => ((n + 1) % 10) :: decimalDigitsAux fuel ((n + 1) / 10)

/-- Decimal ASCII bytes of a natural number, the rendering Rust format!
produces for a usize length (src/main.rs line 96). -/
def decimalBytes (n : Nat) : List Nat :=
  if n = 0 then [48] else (decimalDigitsAux n n).reverse.map (· + 48)

/-- Result of a fallible Rust computation: an ordinary value, an anyhow
error surfaced to the caller, or a panic (unwrap on None, slice index
out of bounds). -/
inductive RResult (α : Type) where
  | ok : α → RResult α
  | err : String → RResult α
  | crash : String → RResult α
deriving DecidableEq, Repr

/-- Functorial action on the ok constructor, errors and panics pass through. -/
def RResult.map (f : α → β) : RResult α → RResult β
  | .ok a => .ok (f a)
  | .err e => .err e
  | .crash p => .crash p

/-- Embeds the ObjectType enum of src/main.rs lines 312-316: the source
declares only Blob and Tree. -/
inductive ObjectType where
  | Blob
  | Tree
deriving DecidableEq, Repr

/-- Embeds bytes_to_object_type, src/main.rs lines 300-310: UTF-8 decode
of the type token (failure propagates as an error), then a match
recognizing exactly the strings blob and tree. -/
def bytes_to_object_type (bs : List Nat) : Except String ObjectType :=
  if validUtf8 bs then
    if bs = asciiBytes "blob" then .ok .Blob
    else if bs = asciiBytes "tree" then .ok .Tree
    else .error "Invalid object type."
  else .error "invalid utf-8 sequence"

deriving instance DecidableEq for Except

/-- Embeds the BlobObject struct, src/main.rs lines 170-173. The source
stores content as the String produced by from_utf8_lossy; the field here
holds the byte list that conversion is applied to, which the lossy
conversion maps one-to-one on the valid UTF-8 inputs the claims range
over. -/
structure BlobObject where
  length : Nat
  content : List Nat
deriving DecidableEq, Repr

/-- Embeds the TreeElement struct, src/main.rs lines 180-186 (mode and
name as their UTF-8 bytes). -/
structure TreeElement where
  mode : List Nat
  object_type : ObjectType
  hash : List Nat
  name : List Nat
deriving DecidableEq, Repr

/-- Embeds the TreeObject struct, src/main.rs lines 175-178. -/
structure TreeObject where
  length : Nat
  elements : List TreeElement
deriving DecidableEq, Repr

/-- Embeds the Object enum, src/main.rs lines 318-321. -/
inductive Object where
  | Blob : BlobObject → Object
  | Tree : TreeObject → Object
deriving DecidableEq, Repr

/-- Embeds BlobObject::from_bytes, src/main.rs lines 189-212: split the
whole input on every null byte, take the first part as the header, split
the header on spaces, check the type token, unwrap the next header part
as the length field (a panic when the header has no space), parse it,
and take the LAST null-separated part as the content. -/
def BlobObject.from_bytes (input : List Nat) : RResult BlobObject :=
  let parts := splitOnByte 0 input
  let header := parts.headD []
  let headerParts := splitOnByte 32 header
  if bytes_to_object_type (headerParts.headD []) ≠ .ok .Blob then
    .err "Object is not of type Blob."
  else
    match headerParts.drop 1 with
    | [] => .crash "called unwrap on a None value"
    | lenBytes :: _ =>
      match parseU32 lenBytes with
      | .error e => .err e
      | .ok length => .ok { length := length, content := parts.getLast?.getD [] }

/-- Embeds TreeElement::from_bytes, src/main.rs lines 263-298: mode is
the bytes before the first space (the whole input when there is none,
making the subsequent slice panic), name is the bytes after the space up
to the first null, and the hash slice starts at mode length + 1 + name
length, which is the INDEX OF THE NULL TERMINATOR itself, and spans 20
bytes from there. -/
def TreeElement.from_bytes (input : List Nat) : RResult TreeElement :=
  let mode_bytes := match input.findIdx? (· = 32) with
    | some pos => input.take pos
    | none => input
  if validUtf8 mode_bytes then
    if mode_bytes.length + 1 ≤ input.length then
      let name_bytes := (input.drop (mode_bytes.length + 1)).takeWhile (· ≠ 0)
      if validUtf8 name_bytes then
        let hash_begin_pos := mode_bytes.length + 1 + name_bytes.length
        if hash_begin_pos + 20 ≤ input.length then
          .ok { mode := mode_bytes, object_type := .Blob,
                hash := (input.drop hash_begin_pos).take 20, name := name_bytes }
        else .crash "slice index out of bounds"
      else .err "invalid utf-8 sequence"
    else .crash "slice index out of bounds"
  else .err "invalid utf-8 sequence"

/-- Embeds the byte-consuming loop of TreeObject::from_bytes,
src/main.rs lines 238-257: walk the content up to the declared length,
accumulating bytes of the current record; on a null byte slice out the
null plus the next 20 bytes unconditionally (a panic when fewer remain
or when the cursor is already past the end of the content), parse the
accumulated record, and continue 21 bytes further. A partial record
left when the cursor reaches the declared length is silently dropped.
The first explicit argument is recursion fuel making the while loop a
structural recursion; one unit is consumed per iteration and the cursor
strictly advances, so starting the fuel at the declared length (as
TreeObject.from_bytes below does) never exhausts it while the loop
condition still holds. -/
def treeLoop (content : List Nat) (length : Nat) :
    Nat → Nat → List Nat → List TreeElement → RResult (List TreeElement)
  | 0, _, _, elements => .ok elements
  | fuel + 1, current_pos, element_bytes, elements =>
    if current_pos < length then
      match content.get? current_pos with
      | none => .crash "index out of bounds"
      | some byte =>
        if byte = 0 then
          if current_pos + 21 ≤ content.length then
            match TreeElement.from_bytes (element_bytes ++ (content.drop current_pos).take 21) with
            | .err e => .err e
            | .crash p => .crash p
            | .ok el => treeLoop content length fuel (current_pos + 21) [] (elements ++ [el])
          else .crash "slice index out of bounds"
        else treeLoop content length fuel (current_pos + 1) (element_bytes ++ [byte]) elements
    else .ok elements

/-- Embeds TreeObject::from_bytes, src/main.rs lines 215-260: split at
the FIRST null (both halves are the whole input when there is none),
split the header on spaces, check the type token, unwrap and parse the
length field (a panic when the header has no space), then run the
record-consuming loop over the content. -/
def TreeObject.from_bytes (input : List Nat) : RResult TreeObject :=
  let (header_bytes, content_bytes) := match input.findIdx? (· = 0) with
    | some pos => (input.take pos, input.drop (pos + 1))
    | none => (input, input)
  let headerParts := splitOnByte 32 header_bytes
  if bytes_to_object_type (headerParts.headD []) ≠ .ok .Tree then
    .err "Object is not of type Tree."
  else
    match headerParts.drop 1 with
    | [] => .crash "called unwrap on a None value"
    | lenBytes :: _ =>
      match parseU32 lenBytes with
      | .error e => .err e
      | .ok length =>
        match treeLoop content_bytes length length 0 [] [] with
        | .err e => .err e
        | .crash p => .crash p
        | .ok els => .ok { length := length, elements := els }

/-- The file system visible to the store: directories created and files
written, each file path mapping to its byte content. -/
structure FS where
  dirs : List String
  files : List (String × List Nat)
deriving DecidableEq, Repr

/-- Embeds fs::create_dir_all for one parent directory. -/
def FS.createDirAll (fs : FS) (d : String) : FS :=
  { fs with dirs := if d ∈ fs.dirs then fs.dirs else fs.dirs ++ [d] }

/-- Embeds fs::write: the file at the path now holds exactly these bytes. -/
def FS.writeFile (fs : FS) (p : String) (c : List Nat) : FS :=
  { fs with files := (p, c) :: fs.files.filter (fun e => e.1 ≠ p) }

/-- The first n characters of a string, embedding chars().take(n).collect(). -/
def strTake (s : String) (n : Nat) : String := ⟨s.data.take n⟩

/-- The characters of a string after the first n, embedding chars().skip(n).collect(). -/
def strDrop (s : String) (n : Nat) : String := ⟨s.data.drop n⟩

/-- Embeds the fan-out directory computation shared by src/main.rs lines
103 and 147: the first two characters of the id. -/
def object_folder (id : String) : String := strTake id 2

/-- Embeds the file-name computation shared by src/main.rs lines 104 and
148: the characters of the id after the first two. -/
def object_file_name (id : String) : String := strDrop id 2

/-- Embeds the path format of src/main.rs lines 105 and 149. -/
def object_path (id : String) : String :=
  "./.git/objects/" ++ object_folder id ++ "/" ++ object_file_name id

/-- Modelled from the spec: the Compressor component is the external
flate2 crate, absent from src/; the spec declares it a reversible
stream codec, so the stored representation is modelled as the encoded
bytes themselves. -/
def zlib_compress (object_content : List Nat) : List Nat := object_content

/-- Modelled from the spec: inverse of zlib_compress (see there). -/
def zlib_decompress (compressed : List Nat) : List Nat := compressed

/-- Embeds calculate_sha_hash, src/main.rs lines 125-131. -/
def calculate_sha_hash (object_content : List Nat) : List Nat := sha1 object_content

/-- The encoded blob built by hash_object at src/main.rs line 96:
format! of "blob ", the decimal byte length, a null byte, and the
content read from the file. -/
def blobEncoding (file_content : List Nat) : List Nat :=
  (asciiBytes "blob " ++ decimalBytes file_content.length) ++ 0 :: file_content

/-- Embeds hash_object, src/main.rs lines 93-116, after the file read:
encode the content as a blob, hash and hex-encode the id, and only when
write is requested create the fan-out directory and persist the
compressed bytes; the id is returned in both modes. -/
def hash_object (file_content : List Nat) (write : Bool) (fs : FS) : String × FS :=
  let object_content := blobEncoding file_content
  let sha_hash := hex_encode (calculate_sha_hash object_content)
  if write then
    (sha_hash,
      (fs.createDirAll ("./.git/objects/" ++ object_folder sha_hash)).writeFile
        (object_path sha_hash) (zlib_compress object_content))
  else (sha_hash, fs)

/-- Embeds the header dispatch of load_git_object, src/main.rs lines
158-167: split the decompressed buffer on every null, take the first
part as header, its first space-separated token as the type, and
dispatch to the type-specific parser over the whole buffer. -/
def decode_object (buffer : List Nat) : RResult Object :=
  let header := (splitOnByte 0 buffer).headD []
  match bytes_to_object_type ((splitOnByte 32 header).headD []) with
  | .error e => .err e
  | .ok .Blob => RResult.map Object.Blob (BlobObject.from_bytes buffer)
  | .ok .Tree => RResult.map Object.Tree (TreeObject.from_bytes buffer)

/-- Embeds load_git_object, src/main.rs lines 146-168: resolve the
fan-out path, open the file (an error when absent), decompress, and
decode. -/
def load_git_object (fs : FS) (object_id : String) : RResult Object :=
  match fs.files.lookup (object_path object_id) with
  | none => .err "No such file or directory"
  | some compressed => decode_object (zlib_decompress compressed)

/-- Embeds ls_tree, src/main.rs lines 133-144, with the printed lines as
the result: load the object, require a Tree, and return the element
names in order. The name_only flag is accepted and IGNORED by the
source. -/
def ls_tree (fs : FS) (object_id : String) (name_only : Bool) : RResult (List (List Nat)) :=
  match load_git_object fs object_id with
  | .ok (Object.Tree tree) => .ok (tree.elements.map TreeElement.name)
  | .ok _ => .err "Invalid object type."
  | .err e => .err e
  | .crash p => .crash p

/-- The empty file system used by concrete instances. -/
def fs0 : FS := { dirs := [], files := [] }

/-- An encoded tree with a single entry named a whose 20 hash bytes are all 1. -/
def treeBufA : List Nat :=
  asciiBytes "tree 29" ++ 0 :: (asciiBytes "100644 a" ++ 0 :: List.replicate 20 1)

/-- Same encoded tree except that the first hash byte is 2. -/
def treeBufB : List Nat :=
  asciiBytes "tree 29" ++ 0 :: (asciiBytes "100644 a" ++ 0 :: (2 :: List.replicate 19 1))

/-- A store holding treeBufA under the id t1. -/
def fsTreeA : FS := { dirs := [], files := [("./.git/objects/t1/", treeBufA)] }

/-- A store holding treeBufB under the id t1. -/
def fsTreeB : FS := { dirs := [], files := [("./.git/objects/t1/", treeBufB)] }

/-- The tree value the parser produces from treeBufA (note the hash field:
the null terminator followed by the first 19 of the 20 hash bytes). -/
def treeValA : TreeObject :=
  { length := 29,
    elements := [{ mode := asciiBytes "100644", object_type := .Blob,
                   hash := 0 :: List.replicate 19 1, name := asciiBytes "a" }] }

/-- The tree value the parser produces from treeBufB. -/
def treeValB : TreeObject :=
  { length := 29,
    elements := [{ mode := asciiBytes "100644", object_type := .Blob,
                   hash := 0 :: 2 :: List.replicate 18 1, name := asciiBytes "a" }] }

/-! Helper lemmas about the byte-splitting and decimal primitives. -/

lemma splitOnByte_no_sep {sep : Nat} {l : List Nat} (h : sep ∉ l) : splitOnByte sep l = [l] := by
  induction l with
  | nil => rfl
  | cons b rest ih =>
    have hb : ¬ b = sep := fun e => h (e ▸ List.mem_cons_self b rest)
    have hr : sep ∉ rest := fun m => h (List.mem_cons_of_mem _ m)
    simp [splitOnByte, hb, ih hr]

lemma splitOnByte_first {sep : Nat} {a : List Nat} (b : List Nat) (h : sep ∉ a) :
    splitOnByte sep (a ++ sep :: b) = a :: splitOnByte sep b := by
  induction a with
  | nil => simp [splitOnByte]
  | cons x a ih =>
    have hx : ¬ x = sep := fun e => h (e ▸ List.mem_cons_self x a)
    have ha : sep ∉ a := fun m => h (List.mem_cons_of_mem _ m)
    simp only [List.cons_append, splitOnByte, hx, if_false, List.append_eq, ih ha]

lemma decimalDigitsAux_eq_digits {fuel n : Nat} (h : n ≤ fuel) :
    decimalDigitsAux fuel n = Nat.digits 10 n := by
  induction fuel generalizing n with
  | zero =>
    have hn : n = 0 := by omega
    subst hn
    simp [decimalDigitsAux]
  | succ f ih =>
    match n with
    | 0 => simp [decimalDigitsAux]
    | m + 1 =>
      have hdiv : (m + 1) / 10 ≤ f := by
        have := Nat.div_lt_self (Nat.succ_pos m) (by norm_num : 1 < 10)
        omega
      simp only [decimalDigitsAux]
      rw [ih hdiv, Nat.digits_def' (by norm_num : 1 < 10) (Nat.succ_pos m)]

lemma decimalBytes_eq (n : Nat) :
    decimalBytes n = if n = 0 then [48] else (Nat.digits 10 n).reverse.map (· + 48) := by
  unfold decimalBytes
  by_cases h0 : n = 0
  · simp [h0]
  · simp [h0, decimalDigitsAux_eq_digits (le_refl n)]

lemma decimalBytes_digit {n d : Nat} (h : d ∈ decimalBytes n) : 48 ≤ d ∧ d ≤ 57 := by
  rw [decimalBytes_eq] at h
  by_cases h0 : n = 0
  · simp [h0] at h
    omega
  · simp only [h0, if_false, List.mem_map, List.mem_reverse] at h
    obtain ⟨e, he, rfl⟩ := h
    have := Nat.digits_lt_base (by norm_num) he
    omega

lemma decimalBytes_ne_nil (n : Nat) : decimalBytes n ≠ [] := by
  rw [decimalBytes_eq]
  by_cases h0 : n = 0
  · simp [h0]
  · simp [h0, Nat.digits_ne_nil_iff_ne_zero.mpr h0]

lemma foldl_base10 (l : List Nat) (acc : Nat) :
    l.reverse.foldl (fun a d => a * 10 + d) acc = acc * 10 ^ l.length + Nat.ofDigits 10 l := by
  induction l generalizing acc with
  | nil => simp [Nat.ofDigits_nil]
  | cons d t ih =>
    simp only [List.reverse_cons, List.foldl_append, List.foldl_cons, List.foldl_nil, ih,
      Nat.ofDigits_cons, List.length_cons, Nat.cast_id, pow_succ]
    ring

lemma parseU32_decimalBytes {n : Nat} (h : n < 4294967296) : parseU32 (decimalBytes n) = .ok n := by
  have hd := @decimalBytes_digit n
  have hhead : ¬ (decimalBytes n).head? = some 43 := by
    intro he
    have h43 : (43 : Nat) ∈ decimalBytes n := by
      cases hl : decimalBytes n with
      | nil => rw [hl] at he; simp at he
      | cons x xs =>
        rw [hl] at he
        simp at he
        subst he
        simp [hl]
    have := hd h43
    omega
  have hne : ¬ (decimalBytes n).isEmpty = true := by
    simp [List.isEmpty_iff, decimalBytes_ne_nil n]
  have hall : (decimalBytes n).all isDigitByte = true := by
    rw [List.all_eq_true]
    intro d hdm
    have := hd hdm
    simp [isDigitByte]
    omega
  rw [parseU32]
  simp only [hhead, if_false, hne, hall, if_true]
  have hval : (decimalBytes n).foldl (fun acc b => acc * 10 + (b - 48)) 0 = n := by
    rw [decimalBytes_eq]
    by_cases h0 : n = 0
    · simp [h0]
    · simp only [h0, if_false, List.foldl_map]
      have : (fun (acc : Nat) (b : Nat) => acc * 10 + (b + 48 - 48)) = fun acc b => acc * 10 + b := by
        funext acc b
        omega
      rw [this, foldl_base10]
      simp [Nat.ofDigits_digits]
  rw [hval]
  simp [h]

/-! Reduction of the blob decode path on a well-formed encoded blob whose
content has no null byte. -/

lemma blobEncoding_header_no_null (file_content : List Nat) :
    (0 : Nat) ∉ asciiBytes "blob " ++ decimalBytes file_content.length := by
  intro hm
  rcases List.mem_append.mp hm with hm | hm
  · revert hm
    decide
  · have := decimalBytes_digit hm
    omega

lemma splitOnByte_blobEncoding {file_content : List Nat} (h0 : (0 : Nat) ∉ file_content) :
    splitOnByte 0 (blobEncoding file_content)
      = [asciiBytes "blob " ++ decimalBytes file_content.length, file_content] := by
  rw [blobEncoding, splitOnByte_first _ (blobEncoding_header_no_null file_content),
    splitOnByte_no_sep h0]

lemma splitOnByte_blobHeader (file_content : List Nat) :
    splitOnByte 32 (asciiBytes "blob " ++ decimalBytes file_content.length)
      = [asciiBytes "blob", decimalBytes file_content.length] := by
  have hshape : asciiBytes "blob " ++ decimalBytes file_content.length
      = asciiBytes "blob" ++ 32 :: decimalBytes file_content.length := by
    have : asciiBytes "blob " = asciiBytes "blob" ++ [32] := by decide
    simp [this]
  rw [hshape, splitOnByte_first _ (by decide), splitOnByte_no_sep]
  intro hm
  have := decimalBytes_digit hm
  omega

lemma blob_from_bytes_encoding {file_content : List Nat} (h0 : (0 : Nat) ∉ file_content)
    (hlen : file_content.length < 4294967296) :
    BlobObject.from_bytes (blobEncoding file_content)
      = .ok { length := file_content.length, content := file_content } := by
  rw [BlobObject.from_bytes]
  simp only [splitOnByte_blobEncoding h0, splitOnByte_blobHeader, List.headD_cons,
    List.drop_succ_cons, List.drop_zero, List.getLast?_cons_cons,
    show bytes_to_object_type (asciiBytes "blob") = .ok .Blob from by decide,
    parseU32_decimalBytes hlen]
  simp

lemma decode_blobEncoding {file_content : List Nat} (h0 : (0 : Nat) ∉ file_content)
    (hlen : file_content.length < 4294967296) :
    decode_object (blobEncoding file_content)
      = .ok (Object.Blob { length := file_content.length, content := file_content }) := by
  rw [decode_object]
  simp only [splitOnByte_blobEncoding h0, splitOnByte_blobHeader, List.headD_cons]
  rw [show bytes_to_object_type (asciiBytes "blob") = .ok .Blob from by decide,
    blob_from_bytes_encoding h0 hlen]
  rfl

/-- Cross-check of the SHA-1 model against the published digest of the
empty input. -/
lemma sha1_empty_input : hex_encode (sha1 []) = "da39a3ee5e6b4b0d3255bfef95601890afd80709" := by
  decide

/-- C1: counterexample — writing the three-byte blob payload a, NUL, b
and reading it back yields the one-byte payload b: the decoder splits on
every null byte and keeps only the last part, so the round trip fails on
payloads with embedded nulls. -/
theorem C1_roundtrip_counterexample :
    load_git_object (hash_object [97, 0, 98] true fs0).2 (hash_object [97, 0, 98] true fs0).1
      = .ok (Object.Blob { length := 3, content := [98] }) ∧
    load_git_object (hash_object [97, 0, 98] true fs0).2 (hash_object [97, 0, 98] true fs0).1
      ≠ .ok (Object.Blob { length := 3, content := [97, 0, 98] }) := by
  decide

/-- C1 (amended): for a Blob — the only type hash_object can write —
whose payload contains no null byte and whose length fits in 32 bits,
writing the object and reading back the stored bytes reconstructs the
original typed value. -/
theorem C1_roundtrip_blob (file_content : List Nat) (fs : FS)
    (h0 : (0 : Nat) ∉ file_content) (hlen : file_content.length < 4294967296) :
    load_git_object (hash_object file_content true fs).2 (hash_object file_content true fs).1
      = .ok (Object.Blob { length := file_content.length, content := file_content }) := by
  simp only [hash_object, if_true, load_git_object, FS.writeFile, FS.createDirAll,
    List.lookup, beq_self_eq_true, zlib_compress, zlib_decompress]
  exact decode_blobEncoding h0 hlen

theorem C1_roundtrip_blob_witness :
    load_git_object (hash_object [97, 98, 99] true fs0).2 (hash_object [97, 98, 99] true fs0).1
      = .ok (Object.Blob { length := 3, content := [97, 98, 99] }) :=
  C1_roundtrip_blob [97, 98, 99] fs0 (by decide) (by decide)

/-- C2: the code DIVERGES from this claim — decoding the encoded blob
with payload a, NUL, b keeps only the bytes after the LAST null byte,
not the entire remainder after the first one. -/
theorem C2_blob_null_divergence :
    BlobObject.from_bytes (asciiBytes "blob 3" ++ 0 :: [97, 0, 98])
      = .ok { length := 3, content := [98] } := by
  decide

/-- C3: the code DIVERGES from this claim — on a well-formed record the
parsed hash is the null terminator followed by the FIRST 19 hash bytes
(the slice starts one byte early), not the 20 bytes after the null. -/
theorem C3_tree_hash_divergence :
    TreeElement.from_bytes (asciiBytes "100644 a.txt" ++ 0 ::
        [1, 2, 3, 4, 5, 6, 7, 8, 9, 10, 11, 12, 13, 14, 15, 16, 17, 18, 19, 20])
      = .ok { mode := asciiBytes "100644", object_type := .Blob,
              hash := [0, 1, 2, 3, 4, 5, 6, 7, 8, 9, 10, 11, 12, 13, 14, 15, 16, 17, 18, 19],
              name := asciiBytes "a.txt" } := by
  decide

/-- C4: the code DIVERGES from this claim — a tree whose final record
offers only 10 hash bytes makes the parser slice past the end of the
content, a panic, not a decode error. -/
theorem C4_truncated_tree_panics :
    TreeObject.from_bytes (asciiBytes "tree 23" ++ 0 ::
        (asciiBytes "100644 a.txt" ++ 0 :: [1, 2, 3, 4, 5, 6, 7, 8, 9, 10]))
      = .crash "slice index out of bounds" := by
  decide

/-- C5: counterexample — the id of the empty blob is not the claimed
digest of zero-length input. -/
theorem C5_empty_blob_counterexample :
    (hash_object [] false fs0).1 ≠ "da39a3ee5e6b4b0d3255bfef95601890afd80709" := by
  decide

/-- C5 (amended): writing a Blob with empty payload hashes the seven
header bytes blob space zero NUL, giving id
e69de29bb2d1d6434b8b29ae775ad8c2e48c5391 in both write modes and for
every prior store state. -/
theorem C5_empty_blob_id (write : Bool) (fs : FS) :
    (hash_object [] write fs).1 = "e69de29bb2d1d6434b8b29ae775ad8c2e48c5391" := by
  have h : hex_encode (calculate_sha_hash (blobEncoding []))
      = "e69de29bb2d1d6434b8b29ae775ad8c2e48c5391" := by decide
  cases write <;> simp [hash_object, h]

/-- C6: counterexample — the token commit is NOT recognized: it is a
decode error, and the ObjectType enum of the source has no Commit
variant at all. -/
theorem C6_commit_counterexample :
    bytes_to_object_type (asciiBytes "commit") = .error "Invalid object type." := by
  decide

/-- C6 (amended): the recognized object type tokens are exactly blob and
tree; every other byte sequence, including commit, is a decode error. -/
theorem C6_object_type_tokens :
    bytes_to_object_type (asciiBytes "blob") = .ok .Blob ∧
    bytes_to_object_type (asciiBytes "tree") = .ok .Tree ∧
    ∀ bs : List Nat, bs ≠ asciiBytes "blob" → bs ≠ asciiBytes "tree" →
      ∃ e, bytes_to_object_type bs = .error e := by
  refine ⟨by decide, by decide, ?_⟩
  intro bs h1 h2
  rw [bytes_to_object_type]
  by_cases hv : validUtf8 bs = true
  · rw [if_pos hv, if_neg h1, if_neg h2]
    exact ⟨_, rfl⟩
  · rw [if_neg hv]
    exact ⟨_, rfl⟩

theorem C6_object_type_tokens_witness :
    ∃ e, bytes_to_object_type (asciiBytes "commit") = .error e :=
  C6_object_type_tokens.2.2 (asciiBytes "commit") (by decide) (by decide)

/-- C7: the code DIVERGES from this claim — a header with no space (raw
bytes blob NUL abc) makes the decoder unwrap a missing length token, a
panic, not a malformed-header error. -/
theorem C7_headerless_length_panics :
    decode_object (asciiBytes "blob" ++ 0 :: asciiBytes "abc")
      = .crash "called unwrap on a None value" := by
  decide

/-- C8: counterexample — with nameOnly false the listing of two stored
trees that differ in their single entry hash is the same name list, so
the listing does not expose the full entries. -/
theorem C8_ls_tree_counterexample :
    ls_tree fsTreeA "t1" false = ls_tree fsTreeB "t1" false ∧
    load_git_object fsTreeA "t1" = .ok (Object.Tree treeValA) ∧
    load_git_object fsTreeB "t1" = .ok (Object.Tree treeValB) ∧
    treeValA.elements.map TreeElement.hash ≠ treeValB.elements.map TreeElement.hash := by
  decide

/-- C8 (amended): for every id that decodes as a Tree, ls_tree returns
the parsed element names, unmodified and in on-disk order, REGARDLESS of
the nameOnly flag (the source ignores it). -/
theorem C8_ls_tree_names (fs : FS) (object_id : String) (name_only : Bool) :
    ls_tree fs object_id name_only = ls_tree fs object_id true ∧
    ∀ t : TreeObject, load_git_object fs object_id = .ok (Object.Tree t) →
      ls_tree fs object_id name_only = .ok (t.elements.map TreeElement.name) := by
  refine ⟨rfl, ?_⟩
  intro t ht
  simp [ls_tree, ht]

theorem C8_ls_tree_names_witness :
    ls_tree fsTreeA "t1" false = .ok (treeValA.elements.map TreeElement.name) :=
  (C8_ls_tree_names fsTreeA "t1" false).2 treeValA (by decide)

/-- C9: a dry-run hash_object call returns the same id as a persisting
one and leaves the file system exactly as it was: no file and no
directory is created or modified. -/
theorem C9_dry_run_id_and_frame (file_content : List Nat) (fs : FS) :
    (hash_object file_content false fs).1 = (hash_object file_content true fs).1 ∧
    (hash_object file_content false fs).2 = fs :=
  ⟨rfl, rfl⟩

/-- C10: for every 40-character id the resolved directory is the first
two characters and the file name the remaining 38, their concatenation
restoring the id, and the given example id resolves to directory e6 and
file name 9de29b... under the fixed store root. -/
theorem C10_path_fanout (id : String) (h : id.data.length = 40) :
    (object_folder id).data.length = 2 ∧
    (object_file_name id).data.length = 38 ∧
    (object_folder id).data ++ (object_file_name id).data = id.data ∧
    object_path "e69de29bb2d1d6434b8b29ae775ad8c2e48c5391"
      = "./.git/objects/e6/9de29bb2d1d6434b8b29ae775ad8c2e48c5391" := by
  refine ⟨?_, ?_, ?_, by decide⟩
  · simp [object_folder, strTake, h]
  · simp [object_file_name, strDrop, h]
  · simp [object_folder, object_file_name, strTake, strDrop]

theorem C10_path_fanout_witness :
    (object_folder "e69de29bb2d1d6434b8b29ae775ad8c2e48c5391").data.length = 2 ∧
    (object_file_name "e69de29bb2d1d6434b8b29ae775ad8c2e48c5391").data.length = 38 ∧
    (object_folder "e69de29bb2d1d6434b8b29ae775ad8c2e48c5391").data ++
      (object_file_name "e69de29bb2d1d6434b8b29ae775ad8c2e48c5391").data
      = "e69de29bb2d1d6434b8b29ae775ad8c2e48c5391".data ∧
    object_path "e69de29bb2d1d6434b8b29ae775ad8c2e48c5391"
      = "./.git/objects/e6/9de29bb2d1d6434b8b29ae775ad8c2e48c5391" :=
  C10_path_fanout "e69de29bb2d1d6434b8b29ae775ad8c2e48c5391" (by decide)

end CodecraftersGit
